import Mathlib

/-!
# Verification of the goban.py binding and its Go rules engine

The repository is a Python binding (src/src/lib.rs) around a Go rules
engine.  The binding's own helpers (`vec_color_to_u8`,
`vec_color_to_raw_split`, `IGoban::__new__`, `IGoban::raw`,
`IGame::__new__`, `IGame::outcome`, `IGame::play`, `IGame::play_and_clone`,
`IGame::resign`, `IGame::pop`, ...) are translated here directly from the
source.  The engine itself (the `goban` crate: `Game`, `Goban`, capture
resolution, ko checking, scoring) is not part of the repository's sources;
those parts are modelled from the specification, and each such definition
says so in its doc comment.
-/

set_option maxRecDepth 20000

deriving instance DecidableEq for Except

namespace GobanPy

/-- Stone state of a board point: tri-state, never null.  Byte encoding
fixed by the spec: Empty = 0, Black = 1, White = 2. -/
inductive Color where
  | empty
  | black
  | white
deriving DecidableEq, Repr

/-- A player: Black or White. -/
inductive Player where
  | black
  | white
deriving DecidableEq, Repr

/-- The opponent of a player. -/
def Player.other : Player → Player
  | .black => .white
  | .white => .black

/-- The stone color a player places. -/
def Player.color : Player → Color
  | .black => Color.black
  | .white => Color.white

/-- A coordinate pair (row, column), 0-indexed (Rust `Coord = (usize, usize)`). -/
abbrev Point := Nat × Nat

/-- Modelled from the spec: the engine's board, an ordered fixed-length
sequence of `Color`, logically a row-major N×N grid (`goban::pieces::goban::Goban`,
not in the repository's sources). -/
structure Goban where
  size : Nat
  tab : List Color
deriving DecidableEq, Repr

/-- Row-major index of a point. -/
def Goban.idx (g : Goban) (p : Point) : Nat :=
  p.1 * g.size + p.2

/-- Whether a point lies on the board. -/
def Goban.inBounds (g : Goban) (p : Point) : Prop :=
  p.1 < g.size ∧ p.2 < g.size

instance (g : Goban) (p : Point) : Decidable (g.inBounds p) :=
  inferInstanceAs (Decidable (_ ∧ _))

/-- Modelled from the spec: `stoneAt(point) -> Color`; out-of-range reads
are never performed by the engine on in-bounds points. -/
def Goban.stoneAt (g : Goban) (p : Point) : Color :=
  g.tab.getD (g.idx p) Color.empty

/-- Modelled from the spec: `setStone(point, color)`. -/
def Goban.setStone (g : Goban) (p : Point) (c : Color) : Goban :=
  { g with tab := g.tab.set (g.idx p) c }

/-- The in-bounds 4-directional (orthogonal) neighbours of a point. -/
def Goban.neighbors (g : Goban) (p : Point) : List Point :=
  (if 0 < p.1 then [(p.1 - 1, p.2)] else []) ++
  (if p.1 + 1 < g.size then [(p.1 + 1, p.2)] else []) ++
  (if 0 < p.2 then [(p.1, p.2 - 1)] else []) ++
  (if p.2 + 1 < g.size then [(p.1, p.2 + 1)] else [])

/-- Modelled from the spec: breadth-first flood fill collecting the maximal
set of points of color `c` 4-connected to the frontier.  Fuel-bounded; each
point enters `acc` at most once so `4·size² + 5` fuel always suffices. -/
def Goban.floodAux (g : Goban) (c : Color) : Nat → List Point → List Point → List Point
  | 0, _, acc => acc
  | _ + 1, [], acc => acc
  | fuel + 1, p :: frontier, acc =>
    if acc.contains p then
      g.floodAux c fuel frontier acc
    else if g.stoneAt p = c ∧ g.inBounds p then
      g.floodAux c fuel (g.neighbors p ++ frontier) (p :: acc)
    else
      g.floodAux c fuel frontier acc

/-- Fuel bound for the flood fill. -/
def Goban.fuel (g : Goban) : Nat :=
  4 * g.size * g.size + 5

/-- Modelled from the spec: `chainAndLiberties(point)`'s chain part — the
maximal same-colored 4-connected set through `point`; empty when `point`
holds no stone. -/
def Goban.chain (g : Goban) (p : Point) : List Point :=
  if g.stoneAt p = Color.empty then []
  else g.floodAux (g.stoneAt p) g.fuel [p] []

/-- Modelled from the spec: the distinct Empty points 4-adjacent to any
point of the chain (each liberty counted once). -/
def Goban.libertyPoints (g : Goban) (ps : List Point) : List Point :=
  ((ps.flatMap g.neighbors).filter (fun q => g.stoneAt q = Color.empty)).dedup

/-- Modelled from the spec: the liberty count of a chain. -/
def Goban.liberties (g : Goban) (ps : List Point) : Nat :=
  (g.libertyPoints ps).length

/-- Modelled from the spec: `removeChain(points)` — set every listed point
to Empty, no validation. -/
def Goban.removeChain (g : Goban) (ps : List Point) : Goban :=
  ps.foldl (fun b p => b.setStone p Color.empty) g

/-- Modelled from the spec: the empty board of a given side length. -/
def Goban.ofSize (n : Nat) : Goban :=
  { size := n, tab := List.replicate (n * n) Color.empty }

/-- All the points of the board, row-major. -/
def Goban.allPoints (g : Goban) : List Point :=
  (List.range g.size).flatMap (fun r => (List.range g.size).map (fun c => (r, c)))

/-- Modelled from the spec: the maximal 4-connected region of Empty points
through `p` (empty when `p` holds a stone). -/
def Goban.emptyRegion (g : Goban) (p : Point) : List Point :=
  if g.stoneAt p = Color.empty then g.floodAux Color.empty g.fuel [p] []
  else []

/-- Modelled from the spec: the distinct stone colors found 4-adjacent to a
region (board edges contribute no color). -/
def Goban.borderColors (g : Goban) (ps : List Point) : List Color :=
  (((ps.flatMap g.neighbors).map g.stoneAt).filter (fun c => c ≠ Color.empty)).dedup

/-- Modelled from the spec: `calculateTerritories()` — partition the Empty
points into maximal 4-connected regions; a region bordered by exactly one
color counts for that color, a region bordered by zero or two colors is
neutral. -/
def Goban.calculateTerritories (g : Goban) : Rat × Rat :=
  let step := fun (st : List Point × Rat × Rat) (p : Point) =>
    let (visited, b, w) := st
    if g.stoneAt p = Color.empty ∧ ¬ visited.contains p then
      let region := g.emptyRegion p
      let cols := g.borderColors region
      if cols = [Color.black] then (region ++ visited, b + region.length, w)
      else if cols = [Color.white] then (region ++ visited, b, w + region.length)
      else (region ++ visited, b, w)
    else st
  let res := g.allPoints.foldl step ([], 0, 0)
  (res.2.1, res.2.2)

/-- The number of stones of a color on the board. -/
def Goban.stonesOnBoard (g : Goban) (c : Color) : Nat :=
  g.tab.count c

/-- Modelled from the spec: `calculateScore()` — area scoring:
black = black stones + black territory; white = white stones + white
territory + komi. -/
def Goban.calculateScore (g : Goban) (komi : Rat) : Rat × Rat :=
  let (bt, wt) := g.calculateTerritories
  (g.stonesOnBoard Color.black + bt, g.stonesOnBoard Color.white + wt + komi)

/-- Modelled from the spec: `Outcome = Score(blackScore, whiteScore) |
WinnerByResign(Player)` (`goban::rules::EndGame`). -/
inductive Outcome where
  | score (b w : Rat)
  | winnerByResign (p : Player)
deriving DecidableEq, Repr

/-- Modelled from the spec: a move — `Play(Point) | Pass | Resign(Player)`
(`goban::rules::game::Move`). -/
inductive GMove where
  | plays (p : Point)
  | pass
  | resignMove (p : Player)
deriving DecidableEq, Repr

/-- The error taxonomy of the spec (the part exercised by `play`/`pop`). -/
inductive PlayError where
  | outOfBounds
  | pointOccupied
  | suicideMove
  | koViolation
  | gameOver
  | emptyHistory
deriving DecidableEq, Repr

/-- A history snapshot: the prior (Board, turn, prisoner-counts). -/
structure Snapshot where
  goban : Goban
  turn : Player
  prisoners : Nat × Nat
deriving DecidableEq, Repr

/-- Modelled from the spec: the game state (`goban::rules::game::Game`):
board, side to move, komi, cumulative prisoner counts (black's, white's),
history stack of prior snapshots, consecutive-pass counter, optional
outcome once ended. -/
structure Game where
  goban : Goban
  turn : Player
  komi : Rat
  prisoners : Nat × Nat
  history : List Snapshot
  passes : Nat
  outcome : Option Outcome
deriving DecidableEq, Repr

/-- Modelled from the spec: a fresh game on an n×n board: empty board,
Black to move, no prisoners, empty history, zero passes, in progress. -/
def Game.new (n : Nat) (komi : Rat) : Game :=
  { goban := Goban.ofSize n
    turn := Player.black
    komi := komi
    prisoners := (0, 0)
    history := []
    passes := 0
    outcome := none }

/-- Add `n` captured stones to the credit of player `pl`. -/
def addPrisoners (pr : Nat × Nat) (pl : Player) (n : Nat) : Nat × Nat :=
  match pl with
  | .black => (pr.1 + n, pr.2)
  | .white => (pr.1, pr.2 + n)

/-- Modelled from the spec, step 3 of the play algorithm: every
opposing-colored chain 4-adjacent to the played point that has zero
liberties is removed; returns the board after captures and the number of
captured stones. -/
def Goban.resolveCaptures (g : Goban) (point : Point) (opp : Color) : Goban × Nat :=
  (g.neighbors point).foldl
    (fun (acc : Goban × Nat) q =>
      if acc.1.stoneAt q = opp then
        let ch := acc.1.chain q
        if acc.1.liberties ch = 0 then (acc.1.removeChain ch, acc.2 + ch.length)
        else acc
      else acc)
    (g, 0)

/-- Modelled from the spec, steps 2-3 for a play by `pl` at `point`: place
the stone, then resolve opposing captures. -/
def Game.boardAfter (g : Game) (point : Point) : Goban × Nat :=
  (g.goban.setStone point g.turn.color).resolveCaptures point g.turn.other.color

/-- Modelled from the spec (§4.2): validate and apply one move.  Checks in
order: game over, bounds, occupancy; tentative placement and capture
resolution; suicide; positional superko against every history snapshot;
on success commit, credit prisoners, push the pre-move snapshot, flip the
turn, reset the pass counter.  A pass increments the pass counter, pushes
the snapshot, ends the game with the computed score on the second
consecutive pass, and flips the turn if the game is not over.  A
resignation ends the game crediting the opponent. -/
def Game.tryPlayMove (g : Game) (m : GMove) : Except PlayError Game :=
  if g.outcome.isSome then .error .gameOver
  else
    match m with
    | .pass =>
      let snap : Snapshot := ⟨g.goban, g.turn, g.prisoners⟩
      if g.passes + 1 ≥ 2 then
        let sc := g.goban.calculateScore g.komi
        .ok { g with history := snap :: g.history
                     passes := g.passes + 1
                     outcome := some (.score sc.1 sc.2) }
      else
        .ok { g with history := snap :: g.history
                     passes := g.passes + 1
                     turn := g.turn.other }
    | .resignMove p =>
      .ok { g with outcome := some (.winnerByResign p.other) }
    | .plays point =>
      if ¬ g.goban.inBounds point then .error .outOfBounds
      else if g.goban.stoneAt point ≠ Color.empty then .error .pointOccupied
      else if (g.boardAfter point).1.liberties ((g.boardAfter point).1.chain point) = 0 then
        .error .suicideMove
      else if g.history.any (fun s => s.goban.tab == (g.boardAfter point).1.tab) then
        .error .koViolation
      else
        .ok { g with goban := (g.boardAfter point).1
                     prisoners := addPrisoners g.prisoners g.turn (g.boardAfter point).2
                     history := ⟨g.goban, g.turn, g.prisoners⟩ :: g.history
                     turn := g.turn.other
                     passes := 0 }

/-- Modelled from the spec: `pop()` — restore the most recent snapshot
(board, turn, prisoners), clearing any outcome; the pass counter is
decremented when the popped transition was a pass (recognised by an
unchanged board) and reset otherwise. -/
def Game.tryPop (g : Game) : Except PlayError Game :=
  match g.history with
  | [] => .error .emptyHistory
  | s :: rest =>
    .ok { g with goban := s.goban
                 turn := s.turn
                 prisoners := s.prisoners
                 history := rest
                 passes := if s.goban.tab == g.goban.tab then g.passes - 1 else 0
                 outcome := none }

/-! ## The binding layer, translated from src/src/lib.rs -/

/-- Translation of `to_color` (lib.rs:20-25): `true ↦ White`, `false ↦ Black`. -/
def to_color (b : Bool) : Color :=
  match b with
  | true => Color.white
  | false => Color.black

/-- The byte value of a color (`*color as u8`); discriminants fixed by the
spec: Empty = 0, Black = 1, White = 2. -/
def Color.toU8 : Color → Nat
  | .empty => 0
  | .black => 1
  | .white => 2

/-- Modelled from the spec: the `From<u8>` conversion used by
`IGoban::__new__` (`v.into()`, from the `goban` crate, not in the
repository's sources), inverse of the byte encoding on the three valid
byte values. -/
def Color.ofU8 : Nat → Color
  | 1 => Color.black
  | 2 => Color.white
  | _ => Color.empty

/-- Translation of `vec_color_to_u8` (lib.rs:27-29). -/
def vec_color_to_u8 (vec : List Color) : List Nat :=
  vec.map Color.toU8

/-- The loop body of `vec_color_to_raw_split` (lib.rs:35-41): at index
`i`, a Black stone sets the black plane, a White stone the white plane,
and an empty point changes nothing. -/
def splitStep (vec : List Color) (bw : List Bool × List Bool) (i : Nat) : List Bool × List Bool :=
  match vec.getD i Color.empty with
  | Color.black => (bw.1.set i true, bw.2)
  | Color.white => (bw.1, bw.2.set i true)
  | Color.empty => bw

/-- Translation of `vec_color_to_raw_split` (lib.rs:31-43): two
all-`false` planes of the board's length; the loop over the indices sets
the black plane at indices holding Black and the white plane at indices
holding White. -/
def vec_color_to_raw_split (vec : List Color) : List Bool × List Bool :=
  (List.range vec.length).foldl (splitStep vec)
    (List.replicate vec.length false, List.replicate vec.length false)

/-- Modelled from the spec: `Goban::from_array(stones, Order::RowMajor)` —
builds the board from a row-major color sequence (side length the square
root of the length). -/
def Goban.fromArray (stones : List Color) : Goban :=
  { size := Nat.sqrt stones.length, tab := stones }

/-- Translation of the `IGoban` pyclass (lib.rs:52-56). -/
structure IGoban where
  goban : Goban
deriving DecidableEq, Repr

/-- Translation of `IGoban::__new__` (lib.rs:84-92): decode each byte into
a `Color` and build the board row-major. -/
def IGoban.new (arr : List Nat) : IGoban :=
  ⟨Goban.fromArray (arr.map Color.ofU8)⟩

/-- Translation of `IGoban::raw` (lib.rs:94-96). -/
def IGoban.raw (g : IGoban) : List Nat :=
  vec_color_to_u8 g.goban.tab

/-- Translation of `IGoban::raw_split` (lib.rs:98-100). -/
def IGoban.raw_split (g : IGoban) : List Bool × List Bool :=
  vec_color_to_raw_split g.goban.tab

/-- Translation of the `IGame` pyclass (lib.rs:107-111). -/
structure IGame where
  game : Game
deriving DecidableEq, Repr

/-- Modelled from the spec: the default komi installed by
`Game::new(_, Rule::Chinese)`, the fraction 15/2 = 7.5; the spec fixes
only that komi is a floating compensation added to White's score, not its
default value. -/
def defaultKomi : Rat := ⟨15, 2, by decide, by decide⟩

/-- Translation of `IGame::__new__` (lib.rs:115-132): sizes 9, 13 and 19
build a fresh game; every other size hits
`panic!("You must choose 9, 13, 19")`, modelled as `none`. -/
def IGame.new (size : Nat) : Option IGame :=
  match size with
  | 9 => some ⟨Game.new 9 defaultKomi⟩
  | 13 => some ⟨Game.new 13 defaultKomi⟩
  | 19 => some ⟨Game.new 19 defaultKomi⟩
  | _ => none

/-- Translation of `IGame::prisoners` (lib.rs:210-212). -/
def IGame.prisoners (g : IGame) : Nat × Nat :=
  g.game.prisoners

/-- Translation of `IGame::over` (lib.rs:231-233); `Game::is_over` is
modelled from the spec as the outcome being set. -/
def IGame.over (g : IGame) : Bool :=
  g.game.outcome.isSome

/-- Translation of `IGame::outcome` (lib.rs:243-256): `None` while in
progress; a score passes through; a win by resignation becomes the
sentinel pair `(-1, 0)` (White won, Black resigned) or `(0, -1)` (Black
won, White resigned). -/
def IGame.outcome (g : IGame) : Option (Rat × Rat) :=
  match g.game.outcome with
  | none => none
  | some endgame =>
    match endgame with
    | .score x y => some (x, y)
    | .winnerByResign res =>
      match res with
      | Player.white => some (-1, 0)
      | Player.black => some (0, -1)

/-- Translation of `IGame::turn` (lib.rs:261-266): `true` White, `false`
Black. -/
def IGame.turn (g : IGame) : Bool :=
  match g.game.turn with
  | Player.white => true
  | Player.black => false

/-- Translation of `IGame::play` (lib.rs:271-277): `Some(coord)` plays a
stone, `None` passes; the binding discards the engine's verdict, so a
rejected move (which the engine rolls back) leaves the state unchanged. -/
def IGame.play (g : IGame) (play : Option Point) : IGame :=
  match g.game.tryPlayMove (match play with | some mov => .plays mov | none => .pass) with
  | .ok game => ⟨game⟩
  | .error _ => g

/-- Translation of `IGame::play_and_clone` (lib.rs:279-282): apply the
move to the receiver, then return a clone of the receiver; the first
component is the receiver's post-call state, the second the returned
clone. -/
def IGame.play_and_clone (g : IGame) (play : Option Point) : IGame × IGame :=
  let g2 := g.play play
  (g2, g2)

/-- Translation of `IGame::resign` (lib.rs:288-293): `true` resigns White,
`false` resigns Black. -/
def IGame.resign (g : IGame) (player : Bool) : IGame :=
  match g.game.tryPlayMove (.resignMove (if player then Player.white else Player.black)) with
  | .ok game => ⟨game⟩
  | .error _ => g

/-- Translation of `IGame::pop` (lib.rs:300-303); an empty history leaves
the state unchanged. -/
def IGame.pop (g : IGame) : IGame :=
  match g.game.tryPop with
  | .ok game => ⟨game⟩
  | .error _ => g

/-- Translation of `IGame::raw_goban` (lib.rs:185-187). -/
def IGame.raw_goban (g : IGame) : List Nat :=
  vec_color_to_u8 g.game.goban.tab

/-- Translation of `IGame::raw_goban_split` (lib.rs:192-196). -/
def IGame.raw_goban_split (g : IGame) : List Bool × List Bool :=
  vec_color_to_raw_split g.game.goban.tab

/-- Translation of `IGame::calculate_territories` (lib.rs:305-307). -/
def IGame.calculate_territories (g : IGame) : Rat × Rat :=
  g.game.goban.calculateTerritories

/-! ## Concrete scenarios and observable equality -/

/-- Fold a list of binding-level moves over a game. -/
def IGame.playList (g : IGame) (ms : List (Option Point)) : IGame :=
  ms.foldl IGame.play g

/-- A fresh 9×9 game. -/
def freshGame9 : IGame :=
  ⟨Game.new 9 defaultKomi⟩

/-- The capture scenario of the spec: Black plays (4,4) and White occupies
its four orthogonal neighbours, Black's intervening moves kept far away on
the top edge. -/
def captureScenario : IGame :=
  freshGame9.playList
    [some (4, 4), some (3, 4), some (0, 0), some (5, 4),
     some (0, 2), some (4, 3), some (0, 4), some (4, 5)]

/-- The suicide scenario of the spec: an otherwise empty 9×9 board with
White stones at (0,1) and (1,0), Black to move. -/
def suicideScenario : Game :=
  { Game.new 9 defaultKomi with
      goban := ((Goban.ofSize 9).setStone (0, 1) Color.white).setStone (1, 0) Color.white }

/-- The single-stone ko scenario of the spec: a capturing diamond around
(2,2)/(2,3) built move by move, ending just after Black's ko capture at
(2,3); White's recapture at (2,2) would reproduce the position before the
capture. -/
def koScenario : IGame :=
  freshGame9.playList
    [some (1, 2), some (1, 3), some (3, 2), some (3, 3), some (2, 1),
     some (2, 4), some (0, 0), some (2, 2), some (2, 3)]

/-- A 9×9 game ended by an immediate double pass. -/
def doublePassed9 : IGame :=
  (freshGame9.play none).play none

/-- The observable equality of the undo claim: same board contents, same
side to move, same prisoner counts, same history depth. -/
def observablyEqual (g1 g2 : Game) : Prop :=
  g1.goban.tab = g2.goban.tab ∧ g1.turn = g2.turn ∧
    g1.prisoners = g2.prisoners ∧ g1.history.length = g2.history.length

instance (g1 g2 : Game) : Decidable (observablyEqual g1 g2) :=
  inferInstanceAs (Decidable (_ ∧ _ ∧ _ ∧ _))

/-! ## The claims -/

/-- C1: Capture resolution — on a 9×9 game, after Black plays (4,4) and
White occupies all four orthogonal neighbours (with Black's intervening
moves elsewhere), the point (4,4) holds Empty and `prisoners()` returns
(0, 1): White captured exactly one Black stone, Black captured none. -/
theorem capture_resolution_C1 :
    captureScenario.game.goban.stoneAt (4, 4) = Color.empty ∧
      captureScenario.prisoners = (0, 1) := by
  decide

/-- C4 (failing input): `IGame::__new__` hits `panic!` — modelled as
`none`, a process-terminating abort rather than a recoverable
`InvalidBoardSize` — on the custom positive sizes 10 and 100, while the
claim (and the spec) require construction to succeed on any custom
positive integer or fail recoverably; only 9, 13 and 19 construct. -/
theorem construction_panics_on_custom_size_C4 :
    IGame.new 10 = none ∧ IGame.new 100 = none ∧
      (IGame.new 9).isSome = true ∧ (IGame.new 13).isSome = true ∧
      (IGame.new 19).isSome = true := by
  decide

/-- C10: `play_and_clone(p)` leaves the receiver in exactly the state
`play(p)` would, and returns a game observably equal to that post-move
state (same board, turn, prisoners, komi and history). -/
theorem play_and_clone_equiv_C10 (g : IGame) (p : Option Point) :
    (g.play_and_clone p).1 = g.play p ∧
      (g.play_and_clone p).2.game.goban = (g.play p).game.goban ∧
      (g.play_and_clone p).2.game.turn = (g.play p).game.turn ∧
      (g.play_and_clone p).2.game.prisoners = (g.play p).game.prisoners ∧
      (g.play_and_clone p).2.game.komi = (g.play p).game.komi ∧
      (g.play_and_clone p).2.game.history = (g.play p).game.history :=
  ⟨rfl, rfl, rfl, rfl, rfl, rfl⟩

/-- C2: Suicide rejection with rollback — any play on an in-bounds empty
point whose own chain has zero liberties after captures are resolved is
rejected with `SuicideMove`, and the binding-level state after the attempt
is exactly the state before it. -/
theorem suicide_rejected_C2 (g : Game) (p : Point)
    (hover : g.outcome = none)
    (hin : g.goban.inBounds p)
    (hemp : g.goban.stoneAt p = Color.empty)
    (hsui : (g.boardAfter p).1.liberties ((g.boardAfter p).1.chain p) = 0) :
    g.tryPlayMove (.plays p) = .error .suicideMove ∧
      IGame.play ⟨g⟩ (some p) = ⟨g⟩ := by
  have h1 : g.tryPlayMove (.plays p) = .error .suicideMove := by
    simp [Game.tryPlayMove, hover, hin, hemp, hsui]
  exact ⟨h1, by simp [IGame.play, h1]⟩

/-- C2 witness: the spec's scenario — an otherwise empty 9×9 board with
White stones at (0,1) and (1,0), Black to move; the Black play at (0,0)
is a zero-liberty play, is rejected with `SuicideMove`, and the state is
unchanged. -/
theorem suicide_rejected_C2_witness :
    (suicideScenario.outcome = none ∧
      suicideScenario.goban.inBounds (0, 0) ∧
      suicideScenario.goban.stoneAt (0, 0) = Color.empty ∧
      (suicideScenario.boardAfter (0, 0)).1.liberties
        ((suicideScenario.boardAfter (0, 0)).1.chain (0, 0)) = 0) ∧
    (suicideScenario.tryPlayMove (.plays (0, 0)) = .error .suicideMove ∧
      IGame.play ⟨suicideScenario⟩ (some (0, 0)) = ⟨suicideScenario⟩) :=
  ⟨⟨by decide, by decide, by decide, by decide⟩,
    suicide_rejected_C2 suicideScenario (0, 0) (by decide) (by decide) (by decide) (by decide)⟩

/-- C3: Positional-superko rejection — any candidate play (in bounds, on
an empty point, not itself a suicide) whose resulting board after
placement and captures equals a board snapshot already present in the
history is rejected with `KoViolation`, and the binding-level state after
the attempt is exactly the state before it. -/
theorem ko_rejected_C3 (g : Game) (p : Point)
    (hover : g.outcome = none)
    (hin : g.goban.inBounds p)
    (hemp : g.goban.stoneAt p = Color.empty)
    (hlib : (g.boardAfter p).1.liberties ((g.boardAfter p).1.chain p) ≠ 0)
    (hko : ∃ s ∈ g.history, s.goban.tab = (g.boardAfter p).1.tab) :
    g.tryPlayMove (.plays p) = .error .koViolation ∧
      IGame.play ⟨g⟩ (some p) = ⟨g⟩ := by
  have hany : g.history.any (fun s => s.goban.tab == (g.boardAfter p).1.tab) = true := by
    simp only [List.any_eq_true, beq_iff_eq]
    exact hko
  have h1 : g.tryPlayMove (.plays p) = .error .koViolation := by
    simp [Game.tryPlayMove, hover, hin, hemp, hlib, hany]
  exact ⟨h1, by simp [IGame.play, h1]⟩

/-- C3 witness: the spec's single-stone ko — after Black's ko capture at
(2,3) in the capturing diamond, White's immediate recapture at (2,2)
would reproduce the position before the capture, so it is rejected with
`KoViolation` and the state is unchanged. -/
theorem ko_rejected_C3_witness :
    (koScenario.game.outcome = none ∧
      koScenario.game.goban.inBounds (2, 2) ∧
      koScenario.game.goban.stoneAt (2, 2) = Color.empty ∧
      (koScenario.game.boardAfter (2, 2)).1.liberties
        ((koScenario.game.boardAfter (2, 2)).1.chain (2, 2)) ≠ 0 ∧
      (∃ s ∈ koScenario.game.history,
        s.goban.tab = (koScenario.game.boardAfter (2, 2)).1.tab)) ∧
    (koScenario.game.tryPlayMove (.plays (2, 2)) = .error .koViolation ∧
      IGame.play ⟨koScenario.game⟩ (some (2, 2)) = ⟨koScenario.game⟩) :=
  ⟨⟨by decide, by decide, by decide, by decide, by decide⟩,
    ko_rejected_C3 koScenario.game (2, 2)
      (by decide) (by decide) (by decide) (by decide) (by decide)⟩

/-- C5: Undo round-trip — for every game state and every legal (accepted)
binding-level move, playing it and then popping yields a state observably
equal to the original: same board contents, same side to move, same
prisoner counts, same history depth. -/
theorem pop_undoes_play_C5 (g g2 : Game) (m : Option Point)
    (h : g.tryPlayMove (match m with | some q => GMove.plays q | none => GMove.pass) = .ok g2) :
    observablyEqual (IGame.pop ⟨g2⟩).game g := by
  cases m with
  | none =>
    unfold Game.tryPlayMove at h
    split at h
    · exact absurd h (by simp)
    · simp only [] at h
      split at h <;>
      · rw [Except.ok.injEq] at h
        subst h
        simp [IGame.pop, Game.tryPop, observablyEqual]
  | some q =>
    unfold Game.tryPlayMove at h
    split at h
    · exact absurd h (by simp)
    · simp only [] at h
      split at h
      · exact absurd h (by simp)
      · split at h
        · exact absurd h (by simp)
        · split at h
          · exact absurd h (by simp)
          · split at h
            · exact absurd h (by simp)
            · rw [Except.ok.injEq] at h
              subst h
              simp [IGame.pop, Game.tryPop, observablyEqual]

/-- C5 witness: on a fresh 9×9 game the play at (2,2) is accepted, and
popping it restores a state observably equal to the fresh game. -/
theorem pop_undoes_play_C5_witness :
    freshGame9.game.tryPlayMove (GMove.plays (2, 2)) =
        .ok (freshGame9.play (some (2, 2))).game ∧
      observablyEqual (IGame.pop ⟨(freshGame9.play (some (2, 2))).game⟩).game
        freshGame9.game :=
  ⟨by decide,
    pop_undoes_play_C5 freshGame9.game (freshGame9.play (some (2, 2))).game
      (some (2, 2)) (by decide)⟩

/-- C6: Double-pass termination — from any in-progress state with no pass
recorded, two consecutive passes leave the game over, and `outcome()`
returns `Some` of exactly the score `calculateScore()` yields on the board
(and komi) at that instant. -/
theorem double_pass_over_C6 (g : Game)
    (hover : g.outcome = none) (hpass : g.passes = 0) :
    IGame.over (IGame.play (IGame.play ⟨g⟩ none) none) = true ∧
      IGame.outcome (IGame.play (IGame.play ⟨g⟩ none) none) =
        some ((IGame.play (IGame.play ⟨g⟩ none) none).game.goban.calculateScore
          (IGame.play (IGame.play ⟨g⟩ none) none).game.komi) := by
  simp [IGame.play, IGame.over, IGame.outcome, Game.tryPlayMove, hover, hpass]

/-- C6 witness: a fresh 9×9 game double-passed is over with the computed
score as its outcome. -/
theorem double_pass_over_C6_witness :
    (freshGame9.game.outcome = none ∧ freshGame9.game.passes = 0) ∧
      IGame.over (IGame.play (IGame.play ⟨freshGame9.game⟩ none) none) = true ∧
      IGame.outcome (IGame.play (IGame.play ⟨freshGame9.game⟩ none) none) =
        some ((IGame.play (IGame.play ⟨freshGame9.game⟩ none) none).game.goban.calculateScore
          (IGame.play (IGame.play ⟨freshGame9.game⟩ none) none).game.komi) :=
  ⟨⟨rfl, rfl⟩, double_pass_over_C6 freshGame9.game rfl rfl⟩

/-- C7: Outcome encoding at the binding boundary — `outcome()` is `None`
whenever the game is not over; a game ended by Black's resignation (White
credited) reports the sentinel pair (-1, 0) and one ended by White's
resignation reports (0, -1); a game whose engine outcome is a score
reports exactly that (blackScore, whiteScore) pair. -/
theorem outcome_encoding_C7 (g : Game) (b w : Rat) :
    (IGame.over ⟨g⟩ = false → IGame.outcome ⟨g⟩ = none) ∧
      (g.outcome = none → IGame.outcome (IGame.resign ⟨g⟩ false) = some (-1, 0)) ∧
      (g.outcome = none → IGame.outcome (IGame.resign ⟨g⟩ true) = some (0, -1)) ∧
      (g.outcome = some (.score b w) → IGame.outcome ⟨g⟩ = some (b, w)) := by
  refine ⟨?_, ?_, ?_, ?_⟩
  · intro h
    rw [IGame.over, Bool.eq_false_iff, Ne, Option.isSome_iff_exists] at h
    push_neg at h
    have h2 : g.outcome = none := Option.eq_none_iff_forall_not_mem.mpr (by
      intro a ha
      exact h a ha)
    simp [IGame.outcome, h2]
  · intro h
    simp [IGame.resign, IGame.outcome, Game.tryPlayMove, h, Player.other]
  · intro h
    simp [IGame.resign, IGame.outcome, Game.tryPlayMove, h, Player.other]
  · intro h
    simp [IGame.outcome, h]

/-- C7 witness: a fresh 9×9 game reports no outcome; resigning Black
reports (-1, 0) and resigning White reports (0, -1); the double-passed
game, whose engine outcome is the computed score, reports exactly that
pair. -/
theorem outcome_encoding_C7_witness :
    (IGame.over ⟨freshGame9.game⟩ = false ∧
      IGame.outcome ⟨freshGame9.game⟩ = none) ∧
      (freshGame9.game.outcome = none ∧
        IGame.outcome (IGame.resign ⟨freshGame9.game⟩ false) = some (-1, 0) ∧
        IGame.outcome (IGame.resign ⟨freshGame9.game⟩ true) = some (0, -1)) ∧
      (doublePassed9.game.outcome =
          some (.score ((Goban.ofSize 9).calculateScore defaultKomi).1
            ((Goban.ofSize 9).calculateScore defaultKomi).2) ∧
        IGame.outcome ⟨doublePassed9.game⟩ =
          some (((Goban.ofSize 9).calculateScore defaultKomi).1,
            ((Goban.ofSize 9).calculateScore defaultKomi).2)) :=
  ⟨⟨by decide, (outcome_encoding_C7 freshGame9.game 0 0).1 (by decide)⟩,
    ⟨rfl,
      (outcome_encoding_C7 freshGame9.game 0 0).2.1 rfl,
      (outcome_encoding_C7 freshGame9.game 0 0).2.2.1 rfl⟩,
    ⟨rfl,
      (outcome_encoding_C7 doublePassed9.game
          ((Goban.ofSize 9).calculateScore defaultKomi).1
          ((Goban.ofSize 9).calculateScore defaultKomi).2).2.2.2 rfl⟩⟩

/-- C8: Serialization round-trip — every byte sequence of valid board
length whose entries each encode a Color reconstructs itself through
`IGoban::__new__` then `raw()`, and every board's contents survive a
`raw()` then `__new__` round-trip. -/
theorem raw_roundtrip_C8 (l : List Nat) (g : IGoban) (n : Nat)
    (hlen : l.length = n * n) (hval : ∀ b ∈ l, b < 3) :
    (IGoban.new l).raw = l ∧ (IGoban.new g.raw).goban.tab = g.goban.tab := by
  constructor
  · simp only [IGoban.new, IGoban.raw, Goban.fromArray, vec_color_to_u8, List.map_map]
    have h : ∀ b ∈ l, (Color.toU8 ∘ Color.ofU8) b = b := by
      intro b hb
      have hb3 := hval b hb
      interval_cases b <;> rfl
    rw [List.map_congr_left h]
    simp
  · simp only [IGoban.new, IGoban.raw, Goban.fromArray, vec_color_to_u8, List.map_map]
    have h : ∀ c ∈ g.goban.tab, (Color.ofU8 ∘ Color.toU8) c = c := by
      intro c _
      cases c <;> rfl
    rw [List.map_congr_left h]
    simp

/-- C8 witness: the 2×2 byte board [1,2,0,1] round-trips through
construction and `raw()`, and a board built from [0,1,2,0] survives
`raw()` then construction. -/
theorem raw_roundtrip_C8_witness :
    (([1, 2, 0, 1] : List Nat).length = 2 * 2 ∧
      ∀ b ∈ ([1, 2, 0, 1] : List Nat), b < 3) ∧
      (IGoban.new [1, 2, 0, 1]).raw = [1, 2, 0, 1] ∧
      (IGoban.new (IGoban.new [0, 1, 2, 0]).raw).goban.tab =
        (IGoban.new [0, 1, 2, 0]).goban.tab :=
  ⟨⟨by decide, by decide⟩,
    raw_roundtrip_C8 [1, 2, 0, 1] (IGoban.new [0, 1, 2, 0]) 2 (by decide) (by decide)⟩

/-- Reading with `getD` after `set` at a different index is unchanged. -/
theorem getD_set_ne {l : List Bool} {i j : Nat} {a : Bool} (h : i ≠ j) :
    (l.set i a).getD j false = l.getD j false := by
  rw [List.getD_eq_getElem?_getD, List.getElem?_set_ne h, ← List.getD_eq_getElem?_getD]

/-- Reading with `getD` after an in-range `set` at that index yields the new value. -/
theorem getD_set_self {l : List Bool} {i : Nat} {a : Bool} (h : i < l.length) :
    (l.set i a).getD i false = a := by
  rw [List.getD_eq_getElem?_getD, List.getElem?_set_eq_of_lt _ h]
  rfl

/-- Reading a replicated `false` plane with `getD` is `false` at every index. -/
theorem getD_replicate_false (n j : Nat) : (List.replicate n false).getD j false = false := by
  rw [List.getD_eq_getElem?_getD, List.getElem?_getD_replicate_default_eq]

/-- Loop invariant of `vec_color_to_raw_split`: folding `splitStep` over
the index range `[s, s+k)` starting from planes of the board's length that
are still `false` from `s` on yields planes of the board's length whose
entries at indices ≥ s record "is Black" / "is White" and whose entries
below s are untouched. -/
theorem splitStep_foldl (vec : List Color) (k : Nat) : ∀ (s : Nat) (b w : List Bool),
    s + k = vec.length →
    b.length = vec.length → w.length = vec.length →
    (∀ j, s ≤ j → b.getD j false = false) →
    (∀ j, s ≤ j → w.getD j false = false) →
    ((List.range' s k).foldl (splitStep vec) (b, w)).1.length = vec.length ∧
      ((List.range' s k).foldl (splitStep vec) (b, w)).2.length = vec.length ∧
      (∀ j, ((List.range' s k).foldl (splitStep vec) (b, w)).1.getD j false =
        if s ≤ j then decide (vec.getD j Color.empty = Color.black) else b.getD j false) ∧
      (∀ j, ((List.range' s k).foldl (splitStep vec) (b, w)).2.getD j false =
        if s ≤ j then decide (vec.getD j Color.empty = Color.white) else w.getD j false) := by
  induction k with
  | zero =>
    intro s b w hs hb hw hbz hwz
    refine ⟨hb, hw, ?_, ?_⟩ <;>
      · intro j
        simp only [List.range', List.foldl_nil]
        split
        · rename_i hsj
          have hj : vec.length ≤ j := by omega
          rw [List.getD_eq_default _ _ hj]
          first
          | rw [hbz j (by omega)]
          | rw [hwz j (by omega)]
          simp
        · rfl
  | succ k ih =>
    intro s b w hs hb hw hbz hwz
    rw [List.range'_succ, List.foldl_cons]
    have hsn : s < vec.length := by omega
    rcases hstep : splitStep vec (b, w) s with ⟨b1, w1⟩
    have hb1 : b1.length = vec.length ∧ w1.length = vec.length ∧
        (∀ j, s + 1 ≤ j → b1.getD j false = false) ∧
        (∀ j, s + 1 ≤ j → w1.getD j false = false) ∧
        b1.getD s false = decide (vec.getD s Color.empty = Color.black) ∧
        w1.getD s false = decide (vec.getD s Color.empty = Color.white) ∧
        (∀ j, j < s → b1.getD j false = b.getD j false) ∧
        (∀ j, j < s → w1.getD j false = w.getD j false) := by
      unfold splitStep at hstep
      rcases hc : vec.getD s Color.empty with _ | _ | _ <;> rw [hc] at hstep <;>
        injection hstep with h1 h2 <;> subst h1 <;> subst h2
      · exact ⟨hb, hw, fun j hj => hbz j (by omega), fun j hj => hwz j (by omega),
          by rw [hbz s (by omega)]; simp [hc],
          by rw [hwz s (by omega)]; simp [hc],
          fun j _ => rfl, fun j _ => rfl⟩
      · refine ⟨by simpa using hb, hw, ?_, fun j hj => hwz j (by omega), ?_, ?_, ?_,
          fun j _ => rfl⟩
        · intro j hj
          rw [getD_set_ne (by omega)]
          exact hbz j (by omega)
        · rw [getD_set_self (by simp only [Prod.fst]; omega)]
          simp [hc]
        · rw [hwz s (by omega)]
          simp [hc]
        · intro j hj
          rw [getD_set_ne (by omega)]
      · refine ⟨hb, by simpa using hw, fun j hj => hbz j (by omega), ?_, ?_, ?_,
          fun j _ => rfl, ?_⟩
        · intro j hj
          rw [getD_set_ne (by omega)]
          exact hwz j (by omega)
        · rw [hbz s (by omega)]
          simp [hc]
        · rw [getD_set_self (by simp only [Prod.snd]; omega)]
          simp [hc]
        · intro j hj
          rw [getD_set_ne (by omega)]
    obtain ⟨hL1, hL2, hz1, hz2, hat1, hat2, hlt1, hlt2⟩ := hb1
    obtain ⟨rL1, rL2, rc1, rc2⟩ := ih (s + 1) b1 w1 (by omega) hL1 hL2 hz1 hz2
    refine ⟨rL1, rL2, ?_, ?_⟩
    · intro j
      rw [rc1 j]
      rcases Nat.lt_trichotomy j s with hj | hj | hj
      · rw [if_neg (by omega), if_neg (by omega)]
        exact hlt1 j hj
      · subst hj
        rw [if_neg (by omega), if_pos (by omega)]
        exact hat1
      · rw [if_pos (by omega), if_pos (by omega)]
    · intro j
      rw [rc2 j]
      rcases Nat.lt_trichotomy j s with hj | hj | hj
      · rw [if_neg (by omega), if_neg (by omega)]
        exact hlt2 j hj
      · subst hj
        rw [if_neg (by omega), if_pos (by omega)]
        exact hat2
      · rw [if_pos (by omega), if_pos (by omega)]

/-- The split planes have the board's length; the black plane records "is
Black" and the white plane "is White" at every index. -/
theorem vec_color_to_raw_split_getD (vec : List Color) :
    (vec_color_to_raw_split vec).1.length = vec.length ∧
      (vec_color_to_raw_split vec).2.length = vec.length ∧
      (∀ j, (vec_color_to_raw_split vec).1.getD j false =
        decide (vec.getD j Color.empty = Color.black)) ∧
      (∀ j, (vec_color_to_raw_split vec).2.getD j false =
        decide (vec.getD j Color.empty = Color.white)) := by
  have h := splitStep_foldl vec vec.length 0
    (List.replicate vec.length false) (List.replicate vec.length false)
    (by omega) (by simp) (by simp)
    (fun j _ => getD_replicate_false _ _) (fun j _ => getD_replicate_false _ _)
  rw [vec_color_to_raw_split, List.range_eq_range']
  obtain ⟨h1, h2, h3, h4⟩ := h
  exact ⟨h1, h2,
    fun j => by rw [h3 j, if_pos (Nat.zero_le j)],
    fun j => by rw [h4 j, if_pos (Nat.zero_le j)]⟩

/-- C9: Split-plane invariant — `raw_goban_split()` returns two boolean
planes of the board's length; at every in-range index at most one plane
is true, the black plane is true exactly at Black points, the white plane
exactly at White points, and both are false exactly at Empty points. -/
theorem raw_goban_split_C9 (g : IGame) (i : Nat)
    (hi : i < g.game.goban.tab.length) :
    (g.raw_goban_split.1.length = g.game.goban.tab.length ∧
      g.raw_goban_split.2.length = g.game.goban.tab.length) ∧
      ¬(g.raw_goban_split.1.getD i false = true ∧
        g.raw_goban_split.2.getD i false = true) ∧
      (g.raw_goban_split.1.getD i false = true ↔
        g.game.goban.tab.getD i Color.empty = Color.black) ∧
      (g.raw_goban_split.2.getD i false = true ↔
        g.game.goban.tab.getD i Color.empty = Color.white) ∧
      ((g.raw_goban_split.1.getD i false = false ∧
        g.raw_goban_split.2.getD i false = false) ↔
        g.game.goban.tab.getD i Color.empty = Color.empty) := by
  obtain ⟨h1, h2, h3, h4⟩ := vec_color_to_raw_split_getD g.game.goban.tab
  have hb := h3 i
  have hw := h4 i
  simp only [IGame.raw_goban_split]
  rw [hb, hw]
  refine ⟨⟨h1, h2⟩, ?_, ?_, ?_, ?_⟩ <;>
    rcases hc : g.game.goban.tab.getD i Color.empty with _ | _ | _ <;> simp [hc]

/-- C9 witness: the capture-scenario game at index 40 (the emptied capture
point (4,4)) — in range, planes of the board's length, mutually exclusive,
and both false exactly because the point is Empty. -/
theorem raw_goban_split_C9_witness :
    40 < captureScenario.game.goban.tab.length ∧
      ((captureScenario.raw_goban_split.1.length = captureScenario.game.goban.tab.length ∧
        captureScenario.raw_goban_split.2.length = captureScenario.game.goban.tab.length) ∧
        ¬(captureScenario.raw_goban_split.1.getD 40 false = true ∧
          captureScenario.raw_goban_split.2.getD 40 false = true) ∧
        (captureScenario.raw_goban_split.1.getD 40 false = true ↔
          captureScenario.game.goban.tab.getD 40 Color.empty = Color.black) ∧
        (captureScenario.raw_goban_split.2.getD 40 false = true ↔
          captureScenario.game.goban.tab.getD 40 Color.empty = Color.white) ∧
        ((captureScenario.raw_goban_split.1.getD 40 false = false ∧
          captureScenario.raw_goban_split.2.getD 40 false = false) ↔
          captureScenario.game.goban.tab.getD 40 Color.empty = Color.empty)) :=
  ⟨by decide, raw_goban_split_C9 captureScenario 40 (by decide)⟩

end GobanPy
